import Mathlib

/-!
# Post controller of the Twitter clone backend

A shallow embedding of `backend/controllers/post.controller.js`.

* A MongoDB collection is a list of documents in insertion order, each stored
  under its `_id`; the `_id`s of one collection are pairwise distinct, which is
  what the database's unique `_id` index enforces.
* A handler is a function from the world (post and user collections, stored
  notifications, issued image uploads) to what it did with the request and the
  world it leaves behind.
* Every awaited dependency call may throw.  Which calls throw is read from an
  environment `Env`; a throw inside a `try` block reaches the `catch` block, a
  throw outside of one rejects the handler's promise.
-/

namespace PostController

/-! ## Documents -/

/-- Modelled from the spec: the comment sub-document of the Post schema
(`models/post.model.js`, not part of the sources): the commenting user and the
text. -/
structure Comment where
  user : Nat
  text : String
deriving DecidableEq, Repr

/-- Modelled from the spec: the Post schema (`models/post.model.js`, not part
of the sources): author, optional text, optional image URL, the users who like
the post, the comments in submission order and the creation timestamp.  The
`_id` is the key under which the collection stores the document. -/
structure Post where
  user : Nat
  text : Option String
  img : Option String
  likes : List Nat
  comments : List Comment
  createdAt : Nat
deriving DecidableEq, Repr

/-- Modelled from the spec: the User schema (`models/user.model.js`, not part
of the sources): user name, the credential field that `select: "-password"`
removes, the followed users and the ids of the liked posts. -/
structure User where
  username : String
  password : String
  following : List Nat
  likedPosts : List Nat
deriving DecidableEq, Repr

/-- Modelled from the spec: the Notification schema
(`models/notification.model.js`, not part of the sources): `from`, `to` and
`type`. -/
structure Notification where
  from_ : Nat
  to_ : Nat
  type : String
deriving DecidableEq, Repr

/-! ## Collections -/

/-- Replace the first document stored under `k` by its image under `g`. -/
def updateFirst {α : Type} (k : Nat) (g : α → α) : List (Nat × α) → List (Nat × α)
  | [] => []
  | d :: ds => if d.1 = k then (d.1, g d.2) :: ds else d :: updateFirst k g ds

/-- Remove the first document stored under `k`. -/
def deleteFirst {α : Type} (k : Nat) : List (Nat × α) → List (Nat × α)
  | [] => []
  | d :: ds => if d.1 = k then ds else d :: deleteFirst k ds

/-- The first document stored under `k`. -/
def lookupFirst {α : Type} (k : Nat) : List (Nat × α) → Option α
  | [] => none
  | d :: ds => if d.1 = k then some d.2 else lookupFirst k ds

theorem map_fst_updateFirst {α : Type} (k : Nat) (g : α → α) (l : List (Nat × α)) :
    (updateFirst k g l).map Prod.fst = l.map Prod.fst := by
  induction l with
  | nil => rfl
  | cons d ds ih =>
    by_cases h : d.1 = k
    · simp [updateFirst, h]
    · simp [updateFirst, h, ih]

theorem mem_updateFirst_fst {α : Type} (k : Nat) (g : α → α) (l : List (Nat × α))
    (d : Nat × α) (hd : d ∈ updateFirst k g l) : d.1 ∈ l.map Prod.fst := by
  rw [← map_fst_updateFirst k g l]
  exact List.mem_map_of_mem Prod.fst hd

theorem deleteFirst_sublist {α : Type} (k : Nat) (l : List (Nat × α)) :
    (deleteFirst k l).Sublist l := by
  induction l with
  | nil => exact List.Sublist.refl _
  | cons d ds ih =>
    by_cases h : d.1 = k
    · simp [deleteFirst, h]
    · simp [deleteFirst, h, ih]

/-- A collection: the documents in insertion order, each under its `_id`, and
the next `_id` the driver hands out.  Stored `_id`s are pairwise distinct and
older than the next one. -/
structure Coll (α : Type) where
  docs : List (Nat × α)
  next : Nat
  fresh : ∀ d ∈ docs, d.1 < next
  nodup : (docs.map Prod.fst).Nodup

namespace Coll

variable {α : Type}

/-- The empty collection. -/
def empty : Coll α := ⟨[], 0, by simp, by simp⟩

/-- `Model.findById(k)`. -/
def findById (c : Coll α) (k : Nat) : Option α := lookupFirst k c.docs

/-- `Model.updateOne({ _id: k }, update)`: nothing happens when no document
matches. -/
def updateOne (c : Coll α) (k : Nat) (g : α → α) : Coll α where
  docs := updateFirst k g c.docs
  next := c.next
  fresh := by
    intro d hd
    have h := mem_updateFirst_fst k g c.docs d hd
    obtain ⟨x, hx, hxd⟩ := List.mem_map.1 h
    rw [← hxd]; exact c.fresh x hx
  nodup := by rw [map_fst_updateFirst]; exact c.nodup

/-- `Model.findByIdAndDelete(k)`. -/
def findByIdAndDelete (c : Coll α) (k : Nat) : Coll α where
  docs := deleteFirst k c.docs
  next := c.next
  fresh := fun d hd => c.fresh d ((deleteFirst_sublist k c.docs).subset hd)
  nodup := ((deleteFirst_sublist k c.docs).map Prod.fst).nodup c.nodup

/-- `Model.create(doc)`: the document is stored last, under a new `_id`. -/
def create (c : Coll α) (a : α) : Coll α where
  docs := c.docs ++ [(c.next, a)]
  next := c.next + 1
  fresh := by
    intro d hd
    rcases List.mem_append.1 hd with h | h
    · exact Nat.lt_succ_of_lt (c.fresh d h)
    · simp only [List.mem_singleton] at h
      subst h; exact Nat.lt_succ_self _
  nodup := by
    rw [List.map_append, List.nodup_append]
    refine ⟨c.nodup, by simp, ?_⟩
    intro x hx hx2
    simp only [List.map_cons, List.map_nil, List.mem_singleton] at hx2
    obtain ⟨d, hd, hdx⟩ := List.mem_map.1 hx
    have := c.fresh d hd
    omega

end Coll

/-! ## World, environment and responses -/

/-- The world the handlers act on: the post and user collections, the stored
notifications in creation order, and the raw images handed to the image store
so far, in call order. -/
structure Store where
  posts : Coll Post
  users : Coll User
  notifications : List Notification
  uploads : List String

/-- The behaviour of the dependencies during one request.  A flag that is
`true` makes the corresponding awaited call throw; `upload` is the image
store, `none` being a failed upload. -/
structure Env where
  userFind : Bool
  userUpdate : Bool
  postFind : Bool
  postCreate : Bool
  postSave : Bool
  postUpdate : Bool
  postDelete : Bool
  notificationSave : Bool
  upload : String → Option String

/-- All database calls succeed; the image store answers with `upload`. -/
def Env.reliable (upload : String → Option String) : Env :=
  ⟨false, false, false, false, false, false, false, false, upload⟩

/-- A user as `populate` with `select: "-password"` returns it. -/
structure PublicUser where
  _id : Nat
  username : String
  following : List Nat
  likedPosts : List Nat
deriving DecidableEq, Repr

/-- A comment whose `user` path is populated. -/
structure PopulatedComment where
  user : Option PublicUser
  text : String
deriving DecidableEq, Repr

/-- A post whose `user` and `comments.user` paths are populated. -/
structure PopulatedPost where
  _id : Nat
  user : Option PublicUser
  text : Option String
  img : Option String
  likes : List Nat
  comments : List PopulatedComment
  createdAt : Nat
deriving DecidableEq, Repr

/-- What `res.json` is called with. -/
inductive Body where
  | posts (ps : List PopulatedPost)
  | post (_id : Nat) (p : Post)
  | likes (ids : List Nat)
  | comments (cs : List Comment)
  | message (msg : String)
  | error (msg : String)
deriving DecidableEq, Repr

/-- The call `res.status(status).json(body)`. -/
structure Response where
  status : Nat
  body : Body
deriving DecidableEq, Repr

/-- How a handler ends: it sent a response, or its promise was rejected by an
exception that no `catch` block of the handler caught. -/
inductive Outcome where
  | sent (r : Response)
  | rejected
deriving DecidableEq, Repr

/-- The response every `catch` block sends. -/
def internalError : Response := ⟨500, .error "Internal server error"⟩

/-- A JavaScript string value that may be `undefined`: falsy when absent or
empty. -/
def falsy (x : Option String) : Bool :=
  match x with
  | none => true
  | some t => t.isEmpty

/-- The referenced user without the password, `none` for a dangling
reference. -/
def populateUser (users : Coll User) (uid : Nat) : Option PublicUser :=
  (users.findById uid).map fun u => ⟨uid, u.username, u.following, u.likedPosts⟩

/-- The two `populate` calls of the listing queries. -/
def populate (users : Coll User) (d : Nat × Post) : PopulatedPost where
  _id := d.1
  user := populateUser users d.2.user
  text := d.2.text
  img := d.2.img
  likes := d.2.likes
  comments := d.2.comments.map fun c => ⟨populateUser users c.user, c.text⟩
  createdAt := d.2.createdAt

/-- `sort({ createdAt: -1 })`: newest first, documents of equal age in stored
order. -/
def sortNewestFirst (ds : List (Nat × Post)) : List (Nat × Post) :=
  ds.insertionSort fun a b => b.2.createdAt ≤ a.2.createdAt

/-- `User.findOne({ username })`. -/
def findOneByUsername (users : Coll User) (username : String) : Option (Nat × User) :=
  users.docs.find? fun d => d.2.username == username

/-! ## The handlers -/

/-- `getAllPosts` (lines 6-31). -/
def getAllPosts (e : Env) (s : Store) : Outcome × Store :=
  -- try
  if e.postFind then (.sent internalError, s) else
  let posts := (sortNewestFirst s.posts.docs).map (populate s.users)
  if posts.length = 0 then (.sent ⟨200, .posts []⟩, s)
  else (.sent ⟨200, .posts posts⟩, s)

/-- `getFollowingPosts` (lines 33-59); `userId` is `req.user._id`. -/
def getFollowingPosts (e : Env) (userId : Nat) (s : Store) : Outcome × Store :=
  -- try
  if e.userFind then (.sent internalError, s) else
  match s.users.findById userId with
  | none => (.sent ⟨404, .error "User not found"⟩, s)
  | some user =>
    let following := user.following
    if e.postFind then (.sent internalError, s) else
    let feedPosts :=
      (sortNewestFirst (s.posts.docs.filter fun d => following.contains d.2.user)).map
        (populate s.users)
    (.sent ⟨200, .posts feedPosts⟩, s)

/-- Lines 79-85 of `createPost`: `Post.create`, the second `save` and the 201
response.  The schema defaults give the new post no likes and no comments. -/
def createPost.persist (e : Env) (now : Nat) (userId : Nat) (text img : Option String)
    (s : Store) : Outcome × Store :=
  if e.postCreate then (.sent internalError, s) else
  let newPost : Post := ⟨userId, text, img, [], [], now⟩
  let s1 := { s with posts := s.posts.create newPost }
  if e.postSave then (.sent internalError, s1) else
  (.sent ⟨201, .post s.posts.next newPost⟩, s1)

/-- `createPost` (lines 61-90); `text` and `img` are the fields of `req.body`,
`userId` is `req.user._id`, `now` is the clock reading that becomes
`createdAt`. -/
def createPost (e : Env) (now : Nat) (userId : Nat) (text img : Option String)
    (s : Store) : Outcome × Store :=
  -- try
  if e.userFind then (.sent internalError, s) else
  match s.users.findById userId with
  | none => (.sent ⟨404, .error "User not found"⟩, s)
  | some _ =>
    if falsy text && falsy img then
      (.sent ⟨400, .error "Please provide text or image"⟩, s)
    else
      match img with
      | none => createPost.persist e now userId text none s
      | some raw =>
        if raw.isEmpty then createPost.persist e now userId text (some raw) s
        else
          -- if (img): the upload is issued, then it answers or throws
          let s1 := { s with uploads := s.uploads ++ [raw] }
          match e.upload raw with
          | none => (.sent internalError, s1)
          | some url => createPost.persist e now userId text (some url) s1

/-- `getUserPosts` (lines 92-122).  The user lookup of line 94 stands before
the `try` block. -/
def getUserPosts (e : Env) (username : String) (s : Store) : Outcome × Store :=
  if e.userFind then (.rejected, s) else
  match findOneByUsername s.users username with
  | none => (.sent ⟨404, .error "User not found"⟩, s)
  | some user =>
    -- try
    if e.postFind then (.sent internalError, s) else
    let posts :=
      (sortNewestFirst (s.posts.docs.filter fun d => d.2.user == user.1)).map
        (populate s.users)
    if posts.length = 0 then (.sent ⟨200, .posts []⟩, s)
    else (.sent ⟨200, .posts posts⟩, s)

/-- `deletePost` (lines 124-141); `id` is `req.params.id`, `userId` is
`req.user._id`. -/
def deletePost (e : Env) (userId id : Nat) (s : Store) : Outcome × Store :=
  -- try
  if e.postFind then (.sent internalError, s) else
  match s.posts.findById id with
  | none => (.sent ⟨404, .error "post not found"⟩, s)
  | some post =>
    if post.user ≠ userId then
      (.sent ⟨401, .error "You are not authorized to delete this post"⟩, s)
    else
      if e.postDelete then (.sent internalError, s) else
      (.sent ⟨200, .message "Post deleted successfully"⟩,
        { s with posts := s.posts.findByIdAndDelete id })

/-- `getLikedPosts` (lines 142-162); `userId` is `req.params.id`. -/
def getLikedPosts (e : Env) (userId : Nat) (s : Store) : Outcome × Store :=
  -- try
  if e.userFind then (.sent internalError, s) else
  match s.users.findById userId with
  | none => (.sent ⟨404, .error "User not found"⟩, s)
  | some user =>
    if e.postFind then (.sent internalError, s) else
    let likedPosts :=
      (s.posts.docs.filter fun d => user.likedPosts.contains d.1).map (populate s.users)
    (.sent ⟨200, .posts likedPosts⟩, s)

/-- `doc.save()` of a document fetched under `k`: the stored document becomes
the in-memory one. -/
def Coll.save {α : Type} (c : Coll α) (k : Nat) (doc : α) : Coll α :=
  c.updateOne k fun _ => doc

/-- `likeUnlikePost` (lines 164-204); `userId` is `req.user._id`, `postId` is
`req.params.id`.  `$pull` removes every occurrence, `$push` appends. -/
def likeUnlikePost (e : Env) (userId postId : Nat) (s : Store) : Outcome × Store :=
  -- try
  if e.postFind then (.sent internalError, s) else
  match s.posts.findById postId with
  | none => (.sent ⟨404, .error "Post not found"⟩, s)
  | some post =>
    let userLikedPost := post.likes.contains userId
    if userLikedPost then
      -- Unlike post
      if e.postUpdate then (.sent internalError, s) else
      let s1 := { s with posts := s.posts.updateOne postId fun p =>
        { p with likes := p.likes.filter fun id => id != userId } }
      if e.userUpdate then (.sent internalError, s1) else
      let s2 := { s1 with users := s1.users.updateOne userId fun u =>
        { u with likedPosts := u.likedPosts.filter fun id => id != postId } }
      let updatedLikes := post.likes.filter fun id => id != userId
      (.sent ⟨200, .likes updatedLikes⟩, s2)
    else
      -- Like post
      let post1 := { post with likes := post.likes ++ [userId] }
      if e.userUpdate then (.sent internalError, s) else
      let s1 := { s with users := s.users.updateOne userId fun u =>
        { u with likedPosts := u.likedPosts ++ [postId] } }
      if e.postSave then (.sent internalError, s1) else
      let s2 := { s1 with posts := s1.posts.save postId post1 }
      let notification : Notification := ⟨userId, post1.user, "like"⟩
      if e.notificationSave then (.sent internalError, s2) else
      let s3 := { s2 with notifications := s2.notifications ++ [notification] }
      let updatedLikes := post1.likes
      (.sent ⟨200, .likes updatedLikes⟩, s3)

/-- `commentOnPost` (lines 206-233); `text` is `req.body.text`, `postId` is
`req.params.id`, `userId` is `req.user._id`. -/
def commentOnPost (e : Env) (userId postId : Nat) (text : Option String)
    (s : Store) : Outcome × Store :=
  -- try
  match text with
  | none => (.sent ⟨400, .error "Text field is required"⟩, s)
  | some t =>
    if t.isEmpty then (.sent ⟨400, .error "Text field is required"⟩, s) else
    if e.postFind then (.sent internalError, s) else
    match s.posts.findById postId with
    | none => (.sent ⟨404, .error "Post not found"⟩, s)
    | some post =>
      let comment : Comment := ⟨userId, t⟩
      let post1 := { post with comments := post.comments ++ [comment] }
      if e.postSave then (.sent internalError, s) else
      let updatedComments := post1.comments
      (.sent ⟨200, .comments updatedComments⟩,
        { s with posts := s.posts.save postId post1 })

/-- Sequential `commentOnPost` calls on one post, one per request
`(userId, text)`, each awaited before the next: the outcomes in call order and
the final world. -/
def commentAll (e : Env) (postId : Nat) : List (Nat × String) → Store → List Outcome × Store
  | [], s => ([], s)
  | r :: rs, s =>
    let first := commentOnPost e r.1 postId (some r.2) s
    let rest := commentAll e postId rs first.2
    (first.1 :: rest.1, rest.2)

/-- The comment a request `(userId, text)` becomes. -/
def toComment (r : Nat × String) : Comment := ⟨r.1, r.2⟩

/-! ## Predicates of the specification -/

/-- The two-sided like relation: a stored user is in a stored post's `likes`
exactly when the post's `_id` is in that user's `likedPosts`. -/
def LikeInv (s : Store) : Prop :=
  ∀ pid p uid u, s.posts.findById pid = some p → s.users.findById uid = some u →
    (uid ∈ p.likes ↔ pid ∈ u.likedPosts)

/-- Every repository and notification write of the request succeeds. -/
def Env.writesSucceed (e : Env) : Prop :=
  e.userUpdate = false ∧ e.postCreate = false ∧ e.postSave = false ∧
    e.postUpdate = false ∧ e.postDelete = false ∧ e.notificationSave = false

/-- Every database call of the request succeeds. -/
def Env.databaseSucceeds (e : Env) : Prop :=
  e.userFind = false ∧ e.postFind = false ∧ e.writesSucceed

/-- No stored post lists a user twice in its `likes`. -/
def LikesNodup (s : Store) : Prop :=
  ∀ pid p, s.posts.findById pid = some p → p.likes.Nodup

/-- The membership state of the pair `(userId, postId)` is the same in `s2`
as in `s`: the same users are in the post's `likes`, and the same post ids are
in the user's `likedPosts`. -/
def SameMembership (userId postId : Nat) (s s2 : Store) : Prop :=
  (∀ v, (∃ p, s2.posts.findById postId = some p ∧ v ∈ p.likes) ↔
      (∃ p, s.posts.findById postId = some p ∧ v ∈ p.likes)) ∧
  (∀ q, (∃ u, s2.users.findById userId = some u ∧ q ∈ u.likedPosts) ↔
      (∃ u, s.users.findById userId = some u ∧ q ∈ u.likedPosts))

/-- The status code of the response, if one was sent. -/
def Outcome.status (o : Outcome) : Option Nat :=
  match o with
  | .sent r => some r.status
  | .rejected => none

/-! ## Sample worlds -/

/-- Two users, `ann` under `_id` 0 and `bob` under `_id` 1; nobody has liked
anything. -/
def sampleUsers : Coll User :=
  (Coll.empty.create ⟨"ann", "secret", [], []⟩).create ⟨"bob", "secret", [0], []⟩

/-- One post, written by `ann`, stored under `_id` 0, without likes or
comments. -/
def samplePosts : Coll Post :=
  Coll.empty.create ⟨0, some "hello", none, [], [], 10⟩

/-- The sample world: `ann`, `bob` and the post of `ann`. -/
def sampleStore : Store := ⟨samplePosts, sampleUsers, [], []⟩

/-- An image store that accepts every upload. -/
def sampleUpload (raw : String) : Option String := some ("https://img/" ++ raw)

/-- The sample world after a like by `bob` whose `post.save()` threw: the
post is in `likedPosts` of `bob`, who is not in the post's `likes`. -/
def skewedStore : Store :=
  ⟨samplePosts,
    (Coll.empty.create ⟨"ann", "secret", [], []⟩).create ⟨"bob", "secret", [0], [0]⟩,
    [], []⟩

/-- Only `post.save()` throws. -/
def saveFails : Env := ⟨false, false, false, false, true, false, false, false, sampleUpload⟩

/-- Only `notification.save()` throws. -/
def notificationFails : Env :=
  ⟨false, false, false, false, false, false, false, true, sampleUpload⟩

/-- Only the user lookup throws. -/
def userFindFails : Env :=
  ⟨true, false, false, false, false, false, false, false, sampleUpload⟩

/-! ## What a successful like and a successful unlike do -/

/-- The world after a successful like of post `postId` (whose document is
`post`) by `userId`. -/
def likedStore (userId postId : Nat) (post : Post) (s : Store) : Store where
  posts := s.posts.save postId { post with likes := post.likes ++ [userId] }
  users := s.users.updateOne userId fun u =>
    { u with likedPosts := u.likedPosts ++ [postId] }
  notifications := s.notifications ++ [⟨userId, post.user, "like"⟩]
  uploads := s.uploads

/-- The world after a successful unlike of post `postId` by `userId`. -/
def unlikedStore (userId postId : Nat) (s : Store) : Store where
  posts := s.posts.updateOne postId fun p =>
    { p with likes := p.likes.filter fun id => id != userId }
  users := s.users.updateOne userId fun u =>
    { u with likedPosts := u.likedPosts.filter fun id => id != postId }
  notifications := s.notifications
  uploads := s.uploads

/-! ## Lookups after writes -/

theorem lookupFirst_updateFirst {α : Type} (k j : Nat) (g : α → α) (l : List (Nat × α)) :
    lookupFirst j (updateFirst k g l)
      = if j = k then (lookupFirst k l).map g else lookupFirst j l := by
  induction l with
  | nil => simp [updateFirst, lookupFirst]
  | cons d ds ih =>
    by_cases h : d.1 = k
    · by_cases hj : j = k
      · subst hj; simp [updateFirst, lookupFirst, h]
      · have hkj : ¬ k = j := fun e => hj e.symm
        simp [updateFirst, lookupFirst, h, hj, hkj]
    · by_cases hj : j = k
      · subst hj; simp [updateFirst, lookupFirst, h, ih]
      · by_cases hdj : d.1 = j
        · simp [updateFirst, lookupFirst, h, hj, hdj]
        · simp [updateFirst, lookupFirst, h, hj, hdj, ih]

theorem lookupFirst_eq_none {α : Type} (k : Nat) (l : List (Nat × α))
    (h : k ∉ l.map Prod.fst) : lookupFirst k l = none := by
  induction l with
  | nil => rfl
  | cons d ds ih =>
    simp only [List.map_cons, List.mem_cons, not_or] at h
    have h1 : ¬ d.1 = k := fun e => h.1 e.symm
    simp [lookupFirst, h1, ih h.2]

theorem lookupFirst_deleteFirst {α : Type} (k j : Nat) (l : List (Nat × α))
    (hl : (l.map Prod.fst).Nodup) :
    lookupFirst j (deleteFirst k l) = if j = k then none else lookupFirst j l := by
  induction l with
  | nil => simp [deleteFirst, lookupFirst]
  | cons d ds ih =>
    simp only [List.map_cons, List.nodup_cons] at hl
    by_cases h : d.1 = k
    · by_cases hj : j = k
      · subst hj
        have : j ∉ ds.map Prod.fst := h ▸ hl.1
        simp [deleteFirst, h, lookupFirst_eq_none j ds this]
      · have hkj : ¬ k = j := fun e => hj e.symm
        simp [deleteFirst, lookupFirst, h, hj, hkj]
    · by_cases hj : j = k
      · subst hj; simp [deleteFirst, lookupFirst, h, ih hl.2]
      · by_cases hdj : d.1 = j
        · simp [deleteFirst, lookupFirst, h, hj, hdj]
        · simp [deleteFirst, lookupFirst, h, hj, hdj, ih hl.2]

theorem lookupFirst_append_fresh {α : Type} (j k : Nat) (a : α) (l : List (Nat × α))
    (hk : k ∉ l.map Prod.fst) :
    lookupFirst j (l ++ [(k, a)]) = if j = k then some a else lookupFirst j l := by
  induction l with
  | nil =>
    by_cases hj : j = k
    · subst hj; simp [lookupFirst]
    · have : ¬ k = j := fun e => hj e.symm
      simp [lookupFirst, hj, this]
  | cons d ds ih =>
    simp only [List.map_cons, List.mem_cons, not_or] at hk
    by_cases hdj : d.1 = j
    · have : ¬ j = k := fun e => hk.1 (e ▸ hdj).symm
      simp [lookupFirst, hdj, this]
    · simp [lookupFirst, hdj, ih hk.2]

namespace Coll

variable {α : Type}

theorem next_not_mem (c : Coll α) : c.next ∉ c.docs.map Prod.fst := by
  intro h
  obtain ⟨d, hd, hdx⟩ := List.mem_map.1 h
  have := c.fresh d hd
  omega

theorem findById_updateOne (c : Coll α) (k j : Nat) (g : α → α) :
    (c.updateOne k g).findById j
      = if j = k then (c.findById k).map g else c.findById j :=
  lookupFirst_updateFirst k j g c.docs

theorem findById_findByIdAndDelete (c : Coll α) (k j : Nat) :
    (c.findByIdAndDelete k).findById j = if j = k then none else c.findById j :=
  lookupFirst_deleteFirst k j c.docs c.nodup

theorem findById_create (c : Coll α) (a : α) (j : Nat) :
    (c.create a).findById j = if j = c.next then some a else c.findById j :=
  lookupFirst_append_fresh j c.next a c.docs c.next_not_mem

end Coll

theorem likeUnlikePost_like (e : Env) (userId postId : Nat) (s : Store) (post : Post)
    (hf : e.postFind = false) (hw : e.writesSucceed)
    (hp : s.posts.findById postId = some post) (hu : userId ∉ post.likes) :
    likeUnlikePost e userId postId s
      = (.sent ⟨200, .likes (post.likes ++ [userId])⟩, likedStore userId postId post s) := by
  obtain ⟨h1, -, h3, -, -, h6⟩ := hw
  simp [likeUnlikePost, likedStore, hf, hp, hu, h1, h3, h6]

theorem likeUnlikePost_unlike (e : Env) (userId postId : Nat) (s : Store) (post : Post)
    (hf : e.postFind = false) (hw : e.writesSucceed)
    (hp : s.posts.findById postId = some post) (hu : userId ∈ post.likes) :
    likeUnlikePost e userId postId s
      = (.sent ⟨200, .likes (post.likes.filter fun id => id != userId)⟩,
          unlikedStore userId postId s) := by
  obtain ⟨h1, -, -, h4, -, -⟩ := hw
  simp [likeUnlikePost, unlikedStore, hf, hp, hu, h1, h4]

theorem likeUnlikePost_missing (e : Env) (userId postId : Nat) (s : Store)
    (hp : s.posts.findById postId = none) :
    (likeUnlikePost e userId postId s).2 = s := by
  cases hf : e.postFind <;> simp [likeUnlikePost, hf, hp]

theorem likeUnlikePost_findFails (e : Env) (userId postId : Nat) (s : Store)
    (hf : e.postFind = true) :
    likeUnlikePost e userId postId s = (.sent internalError, s) := by
  simp [likeUnlikePost, hf]

theorem likeInv_likedStore (userId postId : Nat) (post : Post) (s : Store)
    (hp : s.posts.findById postId = some post) (hu : userId ∉ post.likes)
    (hinv : LikeInv s) : LikeInv (likedStore userId postId post s) := by
  intro pid p uid u hpid huid
  simp only [likedStore, Coll.save, Coll.findById_updateOne] at hpid huid
  by_cases hpp : pid = postId <;> by_cases huu : uid = userId
  · subst hpp; subst huu
    simp only [if_true, hp, Option.map_some', Option.some.injEq] at hpid
    cases hc : s.users.findById uid with
    | none => simp [hc] at huid
    | some u0 =>
      simp only [if_true, hc, Option.map_some', Option.some.injEq] at huid
      subst hpid; subst huid
      simp
  · subst hpp
    simp only [if_true, hp, Option.map_some', Option.some.injEq] at hpid
    simp only [huu, if_false] at huid
    subst hpid
    have := hinv pid post uid u hp huid
    simp [huu, this]
  · subst huu
    simp only [hpp, if_false] at hpid
    cases hc : s.users.findById uid with
    | none => simp [hc] at huid
    | some u0 =>
      simp only [if_true, hc, Option.map_some', Option.some.injEq] at huid
      subst huid
      have := hinv pid p uid u0 hpid hc
      simp [hpp, this]
  · simp only [hpp, if_false] at hpid
    simp only [huu, if_false] at huid
    exact hinv pid p uid u hpid huid

theorem likeInv_unlikedStore (userId postId : Nat) (s : Store)
    (hinv : LikeInv s) : LikeInv (unlikedStore userId postId s) := by
  intro pid p uid u hpid huid
  simp only [unlikedStore, Coll.findById_updateOne] at hpid huid
  by_cases hpp : pid = postId <;> by_cases huu : uid = userId
  · subst hpp; subst huu
    cases hc : s.users.findById uid with
    | none => simp [hc] at huid
    | some u0 =>
      cases hd : s.posts.findById pid with
      | none => simp [hd] at hpid
      | some p0 =>
        simp only [if_true, hc, Option.map_some', Option.some.injEq] at huid
        simp only [if_true, hd, Option.map_some', Option.some.injEq] at hpid
        subst hpid; subst huid
        simp
  · subst hpp
    simp only [huu, if_false] at huid
    cases hd : s.posts.findById pid with
    | none => simp [hd] at hpid
    | some p0 =>
      simp only [if_true, hd, Option.map_some', Option.some.injEq] at hpid
      subst hpid
      have := hinv pid p0 uid u hd huid
      simp [huu, this]
  · subst huu
    simp only [hpp, if_false] at hpid
    cases hc : s.users.findById uid with
    | none => simp [hc] at huid
    | some u0 =>
      simp only [if_true, hc, Option.map_some', Option.some.injEq] at huid
      subst huid
      have := hinv pid p uid u0 hpid hc
      simp [hpp, this]
  · simp only [hpp, if_false] at hpid
    simp only [huu, if_false] at huid
    exact hinv pid p uid u hpid huid

theorem likeInv_sampleStore : LikeInv sampleStore := by
  intro pid p uid u hp hu
  have hl : p.likes = [] := by
    simp only [sampleStore, samplePosts, Coll.findById_create] at hp
    split at hp
    · simp only [Option.some.injEq] at hp; subst hp; rfl
    · simp [Coll.empty, Coll.findById, lookupFirst] at hp
  have hq : u.likedPosts = [] := by
    simp only [sampleStore, sampleUsers, Coll.findById_create] at hu
    split at hu
    · simp only [Option.some.injEq] at hu; subst hu; rfl
    · split at hu
      · simp only [Option.some.injEq] at hu; subst hu; rfl
      · simp [Coll.empty, Coll.findById, lookupFirst] at hu
  simp [hl, hq]

theorem writesSucceed_reliable (upload : String → Option String) :
    (Env.reliable upload).writesSucceed := by
  simp [Env.reliable, Env.writesSucceed]

theorem databaseSucceeds_reliable (upload : String → Option String) :
    (Env.reliable upload).databaseSucceeds := by
  simp [Env.reliable, Env.writesSucceed, Env.databaseSucceeds]

theorem skewedStore_reachable :
    likeUnlikePost saveFails 1 0 sampleStore = (.sent internalError, skewedStore) := by
  rfl

theorem findById_posts_likedStore (userId postId j : Nat) (post : Post) (s : Store)
    (hp : s.posts.findById postId = some post) :
    (likedStore userId postId post s).posts.findById j
      = if j = postId then some { post with likes := post.likes ++ [userId] }
        else s.posts.findById j := by
  simp [likedStore, Coll.save, Coll.findById_updateOne, hp]

theorem findById_users_likedStore (userId postId j : Nat) (post : Post) (s : Store) :
    (likedStore userId postId post s).users.findById j
      = if j = userId then
          (s.users.findById userId).map fun u =>
            { u with likedPosts := u.likedPosts ++ [postId] }
        else s.users.findById j := by
  simp [likedStore, Coll.findById_updateOne]

theorem findById_posts_unlikedStore (userId postId j : Nat) (s : Store) :
    (unlikedStore userId postId s).posts.findById j
      = if j = postId then
          (s.posts.findById postId).map fun p =>
            { p with likes := p.likes.filter fun id => id != userId }
        else s.posts.findById j := by
  simp [unlikedStore, Coll.findById_updateOne]

theorem findById_users_unlikedStore (userId postId j : Nat) (s : Store) :
    (unlikedStore userId postId s).users.findById j
      = if j = userId then
          (s.users.findById userId).map fun u =>
            { u with likedPosts := u.likedPosts.filter fun id => id != postId }
        else s.users.findById j := by
  simp [unlikedStore, Coll.findById_updateOne]

theorem sameMembership_like_unlike (userId postId : Nat) (post : Post) (s : Store)
    (hp : s.posts.findById postId = some post) (hu : userId ∉ post.likes)
    (hpair : ∀ u, s.users.findById userId = some u → postId ∉ u.likedPosts) :
    SameMembership userId postId s
      (unlikedStore userId postId (likedStore userId postId post s)) := by
  constructor
  · intro v
    simp only [findById_posts_unlikedStore, findById_posts_likedStore _ _ _ _ _ hp, if_true,
      Option.map_some', hp, Option.some.injEq]
    constructor
    · rintro ⟨p, rfl, hv⟩
      refine ⟨post, rfl, ?_⟩
      simp only [List.mem_filter, List.mem_append, List.mem_singleton, bne_iff_ne] at hv
      rcases hv with ⟨h | h, hne⟩
      · exact h
      · exact absurd h hne
    · rintro ⟨p, rfl, hv⟩
      refine ⟨_, rfl, ?_⟩
      simp only [List.mem_filter, List.mem_append, List.mem_singleton, bne_iff_ne]
      exact ⟨Or.inl hv, fun h => hu (h ▸ hv)⟩
  · intro q
    simp only [findById_users_unlikedStore, findById_users_likedStore, if_true]
    cases hc : s.users.findById userId with
    | none => simp
    | some u0 =>
      have hq := hpair u0 hc
      simp only [Option.map_some', Option.some.injEq]
      constructor
      · rintro ⟨u, rfl, hv⟩
        refine ⟨u0, rfl, ?_⟩
        simp only [List.mem_filter, List.mem_append, List.mem_singleton, bne_iff_ne] at hv
        rcases hv with ⟨h | h, hne⟩
        · exact h
        · exact absurd h hne
      · rintro ⟨u, rfl, hv⟩
        refine ⟨_, rfl, ?_⟩
        simp only [List.mem_filter, List.mem_append, List.mem_singleton, bne_iff_ne]
        exact ⟨Or.inl hv, fun h => hq (h ▸ hv)⟩

theorem sameMembership_unlike_like (userId postId : Nat) (post : Post) (s : Store)
    (hp : s.posts.findById postId = some post) (hu : userId ∈ post.likes)
    (hpair : ∀ u, s.users.findById userId = some u → postId ∈ u.likedPosts) :
    SameMembership userId postId s
      (likedStore userId postId
        { post with likes := post.likes.filter fun id => id != userId }
        (unlikedStore userId postId s)) := by
  have hp1 : (unlikedStore userId postId s).posts.findById postId
      = some { post with likes := post.likes.filter fun id => id != userId } := by
    simp [findById_posts_unlikedStore, hp]
  constructor
  · intro v
    simp only [findById_posts_likedStore _ _ _ _ _ hp1, if_true, hp, Option.some.injEq]
    constructor
    · rintro ⟨p, rfl, hv⟩
      refine ⟨post, rfl, ?_⟩
      simp only [List.mem_filter, List.mem_append, List.mem_singleton, bne_iff_ne] at hv
      rcases hv with ⟨h, -⟩ | h
      · exact h
      · exact h ▸ hu
    · rintro ⟨p, rfl, hv⟩
      refine ⟨_, rfl, ?_⟩
      simp only [List.mem_filter, List.mem_append, List.mem_singleton, bne_iff_ne]
      by_cases hvu : v = userId
      · exact Or.inr hvu
      · exact Or.inl ⟨hv, hvu⟩
  · intro q
    simp only [findById_users_likedStore, findById_users_unlikedStore, if_true]
    cases hc : s.users.findById userId with
    | none => simp
    | some u0 =>
      have hq := hpair u0 hc
      simp only [Option.map_some', Option.some.injEq]
      constructor
      · rintro ⟨u, rfl, hv⟩
        refine ⟨u0, rfl, ?_⟩
        simp only [List.mem_filter, List.mem_append, List.mem_singleton, bne_iff_ne] at hv
        rcases hv with ⟨h, -⟩ | h
        · exact h
        · exact h ▸ hq
      · rintro ⟨u, rfl, hv⟩
        refine ⟨_, rfl, ?_⟩
        simp only [List.mem_filter, List.mem_append, List.mem_singleton, bne_iff_ne]
        by_cases hvu : q = postId
        · exact Or.inr hvu
        · exact Or.inl ⟨hv, hvu⟩

theorem createPost_persist (e : Env) (now userId : Nat) (text img : Option String)
    (s : Store) (hc : e.postCreate = false) (hs : e.postSave = false) :
    createPost.persist e now userId text img s
      = (.sent ⟨201, .post s.posts.next ⟨userId, text, img, [], [], now⟩⟩,
          { s with posts := s.posts.create ⟨userId, text, img, [], [], now⟩ }) := by
  simp [createPost.persist, hc, hs]

theorem commentOnPost_ok (e : Env) (userId postId : Nat) (t : String) (s : Store)
    (post : Post) (hf : e.postFind = false) (hs : e.postSave = false)
    (ht : t.isEmpty = false) (hp : s.posts.findById postId = some post) :
    commentOnPost e userId postId (some t) s
      = (.sent ⟨200, .comments (post.comments ++ [⟨userId, t⟩])⟩,
          ⟨s.posts.save postId { post with comments := post.comments ++ [⟨userId, t⟩] },
            s.users, s.notifications, s.uploads⟩) := by
  simp [commentOnPost, hf, hs, ht, hp]

theorem commentAll_spec (e : Env) (postId : Nat) (hf : e.postFind = false)
    (hs : e.postSave = false) (reqs : List (Nat × String)) :
    ∀ (s : Store) (post : Post), s.posts.findById postId = some post →
      (∀ r ∈ reqs, r.2.isEmpty = false) →
      (commentAll e postId reqs s).2.posts.findById postId
          = some { post with comments := post.comments ++ reqs.map toComment } ∧
      (commentAll e postId reqs s).1
          = (List.range reqs.length).map fun i =>
              .sent ⟨200, .comments (post.comments ++ (reqs.take (i + 1)).map toComment)⟩ := by
  induction reqs with
  | nil =>
    intro s post hp _
    simp [commentAll, hp]
  | cons r rs ih =>
    intro s post hp hne
    have hr : r.2.isEmpty = false := hne r (List.mem_cons_self r rs)
    have hstep := commentOnPost_ok e r.1 postId r.2 s post hf hs hr hp
    have hp1 : (commentOnPost e r.1 postId (some r.2) s).2.posts.findById postId
        = some { post with comments := post.comments ++ [⟨r.1, r.2⟩] } := by
      rw [hstep]
      simp [Coll.save, Coll.findById_updateOne, hp]
    obtain ⟨ih1, ih2⟩ := ih _ _ hp1 fun x hx => hne x (List.mem_cons_of_mem r hx)
    constructor
    · simp only [commentAll]
      rw [ih1]
      simp [toComment]
    · simp only [commentAll]
      rw [ih2, hstep]
      simp [toComment, List.range_succ_eq_map, Function.comp_def]

theorem length_filter_ne_add_one (u : Nat) (l : List Nat) (hn : l.Nodup) (hu : u ∈ l) :
    (l.filter fun id => id != u).length + 1 = l.length := by
  induction l with
  | nil => simp at hu
  | cons a as ih =>
    simp only [List.nodup_cons] at hn
    by_cases ha : a = u
    · subst ha
      have hall : as.filter (fun id => id != a) = as := by
        apply List.filter_eq_self.2
        intro x hx
        simp only [bne_iff_ne, ne_eq]
        exact fun h => hn.1 (h ▸ hx)
      simp [hall]
    · have hmem : u ∈ as := by
        rcases List.mem_cons.1 hu with h | h
        · exact absurd h.symm ha
        · exact h
      have := ih hn.2 hmem
      simp [List.filter_cons, ha]
      omega

theorem likeUnlikePost_posts_cases (e : Env) (userId postId : Nat) (s : Store) :
    (likeUnlikePost e userId postId s).2.posts = s.posts ∨
    (likeUnlikePost e userId postId s).2.posts
      = (s.posts.updateOne postId fun p =>
          { p with likes := p.likes.filter fun id => id != userId }) ∨
    ∃ post, s.posts.findById postId = some post ∧ userId ∉ post.likes ∧
      (likeUnlikePost e userId postId s).2.posts
        = s.posts.save postId { post with likes := post.likes ++ [userId] } := by
  cases hf : e.postFind with
  | true => left; simp [likeUnlikePost, hf]
  | false =>
    cases hp : s.posts.findById postId with
    | none => left; simp [likeUnlikePost, hf, hp]
    | some post =>
      by_cases hu : userId ∈ post.likes
      · cases h1 : e.postUpdate with
        | true => left; simp [likeUnlikePost, hf, hp, hu, h1]
        | false =>
          right; left
          cases h2 : e.userUpdate <;> simp [likeUnlikePost, hf, hp, hu, h1, h2]
      · cases h1 : e.userUpdate with
        | true => left; simp [likeUnlikePost, hf, hp, hu, h1]
        | false =>
          cases h2 : e.postSave with
          | true => left; simp [likeUnlikePost, hf, hp, hu, h1, h2]
          | false =>
            right; right
            refine ⟨post, rfl, hu, ?_⟩
            cases h3 : e.notificationSave <;> simp [likeUnlikePost, hf, hp, hu, h1, h2, h3]

theorem likesNodup_sampleStore : LikesNodup sampleStore := by
  intro pid p hp
  simp only [sampleStore, samplePosts, Coll.findById_create] at hp
  split at hp
  · simp only [Option.some.injEq] at hp; subst hp; simp
  · simp [Coll.empty, Coll.findById, lookupFirst] at hp

/-- Seven of the eight handlers always send a response, whatever the
dependencies do; `getUserPosts` does so unless its user lookup throws. -/
theorem handlers_respond (e : Env) (s : Store) (now userId postId : Nat)
    (text img : Option String) (username : String) :
    (getAllPosts e s).1 ≠ .rejected ∧
    (getFollowingPosts e userId s).1 ≠ .rejected ∧
    (createPost e now userId text img s).1 ≠ .rejected ∧
    (deletePost e userId postId s).1 ≠ .rejected ∧
    (getLikedPosts e userId s).1 ≠ .rejected ∧
    (likeUnlikePost e userId postId s).1 ≠ .rejected ∧
    (commentOnPost e userId postId text s).1 ≠ .rejected ∧
    (e.userFind = false → (getUserPosts e username s).1 ≠ .rejected) := by
  refine ⟨?_, ?_, ?_, ?_, ?_, ?_, ?_, ?_⟩
  · unfold getAllPosts
    dsimp only
    split_ifs <;> simp
  · unfold getFollowingPosts; repeat' split
    all_goals simp
  · unfold createPost createPost.persist; repeat' split
    all_goals simp
  · unfold deletePost; repeat' split
    all_goals simp
  · unfold getLikedPosts; repeat' split
    all_goals simp
  · unfold likeUnlikePost
    cases s.posts.findById postId with
    | none => split_ifs <;> simp
    | some post => dsimp only; split_ifs <;> simp
  · unfold commentOnPost; repeat' split
    all_goals simp
  · intro h
    unfold getUserPosts
    rw [h]
    cases findOneByUsername s.users username with
    | none => simp
    | some user => dsimp only; split_ifs <;> simp_all

/-! ## The claims -/

/-- C1: `likeUnlikePost` preserves the two-sided like invariant.  In a world
where every stored user is in a stored post's `likes` exactly when the post's
`_id` is in the user's `likedPosts`, and for every requester and post id, if the
repository and notification writes succeed then the same equivalence holds for
every post and every user after `likeUnlikePost`. -/
theorem likeUnlikePost_preserves_likeInv (e : Env) (userId postId : Nat) (s : Store)
    (hw : e.writesSucceed) (hinv : LikeInv s) :
    LikeInv (likeUnlikePost e userId postId s).2 := by
  cases hf : e.postFind with
  | true => rw [likeUnlikePost_findFails e userId postId s hf]; exact hinv
  | false =>
    cases hp : s.posts.findById postId with
    | none => rw [likeUnlikePost_missing e userId postId s hp]; exact hinv
    | some post =>
      by_cases hu : userId ∈ post.likes
      · rw [likeUnlikePost_unlike e userId postId s post hf hw hp hu]
        exact likeInv_unlikedStore userId postId s hinv
      · rw [likeUnlikePost_like e userId postId s post hf hw hp hu]
        exact likeInv_likedStore userId postId post s hp hu hinv

/-- Witness of C1: `bob` likes the post of `ann` in the sample world. -/
theorem likeUnlikePost_preserves_likeInv_witness :
    (Env.reliable sampleUpload).writesSucceed ∧ LikeInv sampleStore ∧
      sampleStore.posts.findById 0 = some ⟨0, some "hello", none, [], [], 10⟩ ∧
      LikeInv (likeUnlikePost (Env.reliable sampleUpload) 1 0 sampleStore).2 :=
  ⟨writesSucceed_reliable sampleUpload, likeInv_sampleStore, rfl,
    likeUnlikePost_preserves_likeInv (Env.reliable sampleUpload) 1 0 sampleStore
      (writesSucceed_reliable sampleUpload) likeInv_sampleStore⟩

/-- C2, as stated, fails: in the world a like with a failed `post.save()`
leaves behind, `bob` is not in the post's `likes` while the post is in his
`likedPosts`.  Two successful calls answer 200 with `[1]` and `[]`, and
afterwards the post is no longer among the `likedPosts` of `bob`. -/
theorem likeUnlikePost_twice_counterexample :
    (Env.reliable sampleUpload).databaseSucceeds ∧
    (likeUnlikePost (Env.reliable sampleUpload) 1 0 skewedStore).1
      = .sent ⟨200, .likes [1]⟩ ∧
    (likeUnlikePost (Env.reliable sampleUpload) 1 0
      (likeUnlikePost (Env.reliable sampleUpload) 1 0 skewedStore).2).1
      = .sent ⟨200, .likes []⟩ ∧
    skewedStore.users.findById 1 = some ⟨"bob", "secret", [0], [0]⟩ ∧
    (likeUnlikePost (Env.reliable sampleUpload) 1 0
      (likeUnlikePost (Env.reliable sampleUpload) 1 0 skewedStore).2).2.users.findById 1
      = some ⟨"bob", "secret", [0], []⟩ ∧
    ¬ SameMembership 1 0 skewedStore
      (likeUnlikePost (Env.reliable sampleUpload) 1 0
        (likeUnlikePost (Env.reliable sampleUpload) 1 0 skewedStore).2).2 := by
  refine ⟨databaseSucceeds_reliable sampleUpload, rfl, rfl, rfl, rfl, ?_⟩
  rintro ⟨-, h⟩
  obtain ⟨u, hu, hq⟩ := (h 0).2 ⟨⟨"bob", "secret", [0], [0]⟩, rfl, by simp⟩
  have hfin : (likeUnlikePost (Env.reliable sampleUpload) 1 0
      (likeUnlikePost (Env.reliable sampleUpload) 1 0 skewedStore).2).2.users.findById 1
      = some ⟨"bob", "secret", [0], []⟩ := rfl
  rw [hfin] at hu
  simp only [Option.some.injEq] at hu
  subst hu
  simp at hq

/-- C2, amended: when the requester is in the post's `likes` exactly if the
post is in the requester's `likedPosts`, two consecutive successful calls of
`likeUnlikePost` both answer 200 and restore the membership state: the same
users are in the post's `likes` and the same posts are in the requester's
`likedPosts` as before, whether the cycle starts with a like or an unlike. -/
theorem likeUnlikePost_twice_restores (e : Env) (userId postId : Nat) (s : Store)
    (post : Post) (hf : e.postFind = false) (hw : e.writesSucceed)
    (hp : s.posts.findById postId = some post)
    (hpair : ∀ u, s.users.findById userId = some u →
      (userId ∈ post.likes ↔ postId ∈ u.likedPosts)) :
    (∃ l1 l2, (likeUnlikePost e userId postId s).1 = .sent ⟨200, .likes l1⟩ ∧
      (likeUnlikePost e userId postId (likeUnlikePost e userId postId s).2).1
        = .sent ⟨200, .likes l2⟩) ∧
    SameMembership userId postId s
      (likeUnlikePost e userId postId (likeUnlikePost e userId postId s).2).2 := by
  by_cases hu : userId ∈ post.likes
  · have hp1 : (unlikedStore userId postId s).posts.findById postId
        = some { post with likes := post.likes.filter fun id => id != userId } := by
      simp [findById_posts_unlikedStore, hp]
    have hu1 : userId ∉
        ({ post with likes := post.likes.filter fun id => id != userId } : Post).likes := by
      simp
    rw [likeUnlikePost_unlike e userId postId s post hf hw hp hu]
    rw [likeUnlikePost_like e userId postId _ _ hf hw hp1 hu1]
    exact ⟨⟨_, _, rfl, rfl⟩,
      sameMembership_unlike_like userId postId post s hp hu
        fun u h => (hpair u h).1 hu⟩
  · have hp1 : (likedStore userId postId post s).posts.findById postId
        = some { post with likes := post.likes ++ [userId] } := by
      simp [findById_posts_likedStore _ _ _ _ _ hp]
    have hu1 : userId ∈ ({ post with likes := post.likes ++ [userId] } : Post).likes := by
      simp
    rw [likeUnlikePost_like e userId postId s post hf hw hp hu]
    rw [likeUnlikePost_unlike e userId postId _ _ hf hw hp1 hu1]
    exact ⟨⟨_, _, rfl, rfl⟩,
      sameMembership_like_unlike userId postId post s hp hu
        fun u h hq => hu ((hpair u h).2 hq)⟩

/-- Witness of the amended C2: `bob` likes and unlikes the post of `ann` in the
sample world. -/
theorem likeUnlikePost_twice_restores_witness :
    (Env.reliable sampleUpload).postFind = false ∧
    (Env.reliable sampleUpload).writesSucceed ∧
    sampleStore.posts.findById 0 = some ⟨0, some "hello", none, [], [], 10⟩ ∧
    (∃ l1 l2, (likeUnlikePost (Env.reliable sampleUpload) 1 0 sampleStore).1
        = .sent ⟨200, .likes l1⟩ ∧
      (likeUnlikePost (Env.reliable sampleUpload) 1 0
        (likeUnlikePost (Env.reliable sampleUpload) 1 0 sampleStore).2).1
        = .sent ⟨200, .likes l2⟩) ∧
    SameMembership 1 0 sampleStore
      (likeUnlikePost (Env.reliable sampleUpload) 1 0
        (likeUnlikePost (Env.reliable sampleUpload) 1 0 sampleStore).2).2 :=
  ⟨rfl, writesSucceed_reliable sampleUpload, rfl,
    likeUnlikePost_twice_restores (Env.reliable sampleUpload) 1 0 sampleStore
      ⟨0, some "hello", none, [], [], 10⟩ rfl (writesSucceed_reliable sampleUpload) rfl
      (fun u h => by
        have hb : sampleStore.users.findById 1 = some ⟨"bob", "secret", [0], []⟩ := rfl
        rw [hb] at h
        simp only [Option.some.injEq] at h
        subst h
        simp)⟩

/-- C3: `deletePost` removes a post exactly when the requester is its author.
For an existing post and working repository: if the author differs from the
requester the response is 401 Unauthorized, the world is unchanged and the post
is still retrievable; if the author is the requester the response is 200,
a lookup of the id finds nothing afterwards, every other post is unchanged and
so are users, notifications and uploads. -/
theorem deletePost_removes_iff_author (e : Env) (userId id : Nat) (s : Store) (post : Post)
    (hdb : e.databaseSucceeds) (hp : s.posts.findById id = some post) :
    (post.user ≠ userId →
      deletePost e userId id s
        = (.sent ⟨401, .error "You are not authorized to delete this post"⟩, s) ∧
      (deletePost e userId id s).2.posts.findById id = some post) ∧
    (post.user = userId →
      (deletePost e userId id s).1 = .sent ⟨200, .message "Post deleted successfully"⟩ ∧
      (deletePost e userId id s).2.posts.findById id = none ∧
      (∀ j, j ≠ id →
        (deletePost e userId id s).2.posts.findById j = s.posts.findById j) ∧
      (deletePost e userId id s).2.users = s.users ∧
      (deletePost e userId id s).2.notifications = s.notifications ∧
      (deletePost e userId id s).2.uploads = s.uploads) := by
  obtain ⟨-, hf, -, -, -, -, hd, -⟩ := hdb
  constructor
  · intro hne
    simp [deletePost, hf, hp, hne]
  · intro heq
    simp only [deletePost, hf, hp, heq, hd, ne_eq, not_true_eq_false, if_false,
      Bool.false_eq_true, Coll.findById_findByIdAndDelete, if_true, true_and]
    exact ⟨fun j hj => by simp [hj], trivial⟩

/-- Witness of C3: in the sample world `bob` may not delete the post of `ann`,
and `ann` may. -/
theorem deletePost_removes_iff_author_witness :
    (Env.reliable sampleUpload).databaseSucceeds ∧
    sampleStore.posts.findById 0 = some ⟨0, some "hello", none, [], [], 10⟩ ∧
    (deletePost (Env.reliable sampleUpload) 1 0 sampleStore).1
      = .sent ⟨401, .error "You are not authorized to delete this post"⟩ ∧
    (deletePost (Env.reliable sampleUpload) 0 0 sampleStore).2.posts.findById 0 = none :=
  ⟨databaseSucceeds_reliable sampleUpload, rfl,
    congrArg Prod.fst
      ((deletePost_removes_iff_author (Env.reliable sampleUpload) 1 0 sampleStore
        ⟨0, some "hello", none, [], [], 10⟩
        (databaseSucceeds_reliable sampleUpload) rfl).1 (by decide)).1,
    ((deletePost_removes_iff_author (Env.reliable sampleUpload) 0 0 sampleStore
        ⟨0, some "hello", none, [], [], 10⟩
        (databaseSucceeds_reliable sampleUpload) rfl).2 rfl).2.1⟩

/-- C4: `createPost` fails with InvalidInput exactly when both inputs are
missing.  For an existing author and a working database the response is 400 if
and only if `text` and `img` are both empty or absent; in that case the world is
unchanged, so no upload is issued and no post is persisted.  When one of them is
present and the upload, if any, succeeds, the response is 201 and the post
collection grows by exactly one post, written by that user, stored last. -/
theorem createPost_invalidInput_iff (e : Env) (now userId : Nat) (text img : Option String)
    (s : Store) (usr : User) (hdb : e.databaseSucceeds)
    (hu : s.users.findById userId = some usr) :
    ((createPost e now userId text img s).1.status = some 400 ↔
      (falsy text = true ∧ falsy img = true)) ∧
    ((falsy text = true ∧ falsy img = true) →
      createPost e now userId text img s
        = (.sent ⟨400, .error "Please provide text or image"⟩, s)) ∧
    (¬ (falsy text = true ∧ falsy img = true) →
      (∀ raw, img = some raw → raw.isEmpty = false → ∃ url, e.upload raw = some url) →
      ∃ newPost : Post,
        (createPost e now userId text img s).1 = .sent ⟨201, .post s.posts.next newPost⟩ ∧
        newPost.user = userId ∧ newPost.text = text ∧ newPost.likes = [] ∧
        newPost.comments = [] ∧ newPost.createdAt = now ∧
        (createPost e now userId text img s).2.posts.docs
          = s.posts.docs ++ [(s.posts.next, newPost)] ∧
        (createPost e now userId text img s).2.users = s.users) := by
  obtain ⟨hf, -, -, hc, hs, -, -, -⟩ := hdb
  by_cases hboth : falsy text = true ∧ falsy img = true
  · have h400 : createPost e now userId text img s
        = (.sent ⟨400, .error "Please provide text or image"⟩, s) := by
      simp [createPost, hf, hu, hboth.1, hboth.2]
    refine ⟨?_, fun _ => h400, fun h => absurd hboth h⟩
    rw [h400]
    simp [Outcome.status, hboth]
  · have hcond : (falsy text && falsy img) = false := by
      cases h1 : falsy text <;> cases h2 : falsy img <;> simp_all
    refine ⟨?_, fun h => absurd h hboth, ?_⟩
    · constructor
      · intro h400
        exfalso
        cases img with
        | none =>
          simp [createPost, hf, hu, hcond, createPost_persist, hc, hs, Outcome.status] at h400
        | some raw =>
          cases hr : raw.isEmpty with
          | true =>
            simp [createPost, hf, hu, hcond, hr, createPost_persist, hc, hs,
              Outcome.status] at h400
          | false =>
            cases hup : e.upload raw with
            | none =>
              simp [createPost, hf, hu, hcond, hr, hup, Outcome.status, internalError] at h400
            | some url =>
              simp [createPost, hf, hu, hcond, hr, hup, createPost_persist, hc, hs,
                Outcome.status] at h400
      · intro h; exact absurd h hboth
    · intro _ hup
      cases img with
      | none =>
        refine ⟨⟨userId, text, none, [], [], now⟩, ?_⟩
        simp [createPost, hf, hu, hcond, createPost_persist, hc, hs, Coll.create]
      | some raw =>
        cases hr : raw.isEmpty with
        | true =>
          refine ⟨⟨userId, text, some raw, [], [], now⟩, ?_⟩
          simp [createPost, hf, hu, hcond, hr, createPost_persist, hc, hs, Coll.create]
        | false =>
          obtain ⟨url, hurl⟩ := hup raw rfl hr
          refine ⟨⟨userId, text, some url, [], [], now⟩, ?_⟩
          simp [createPost, hf, hu, hcond, hr, hurl, createPost_persist, hc, hs, Coll.create]

/-- Witness of C4: `ann` posts a text without an image in the sample world. -/
theorem createPost_invalidInput_iff_witness :
    (Env.reliable sampleUpload).databaseSucceeds ∧
    sampleStore.users.findById 0 = some ⟨"ann", "secret", [], []⟩ ∧
    ((createPost (Env.reliable sampleUpload) 11 0 (some "hi") none sampleStore).1.status
        = some 400 ↔ (falsy (some "hi") = true ∧ falsy none = true)) ∧
    (createPost (Env.reliable sampleUpload) 11 0 (some "hi") none sampleStore).1
      = .sent ⟨201, .post 1 ⟨0, some "hi", none, [], [], 11⟩⟩ :=
  ⟨databaseSucceeds_reliable sampleUpload, rfl,
    (createPost_invalidInput_iff (Env.reliable sampleUpload) 11 0 (some "hi") none
      sampleStore ⟨"ann", "secret", [], []⟩ (databaseSucceeds_reliable sampleUpload) rfl).1,
    rfl⟩

/-- C5: `commentOnPost` appends at the end and preserves call order.  For an
existing post with comments `cs` and requests `(u1, t1), ..., (uN, tN)` with
non-empty texts, after the N sequential calls the post's comments are `cs`
followed by the N new comments in call order (so their number is the old number
plus N), and the i-th call answers 200 with the comments as they stand after
that call. -/
theorem commentOnPost_appends_in_order (e : Env) (postId : Nat) (s : Store) (post : Post)
    (reqs : List (Nat × String)) (hdb : e.databaseSucceeds)
    (hp : s.posts.findById postId = some post)
    (hne : ∀ r ∈ reqs, r.2.isEmpty = false) :
    (∃ post2, (commentAll e postId reqs s).2.posts.findById postId = some post2 ∧
      post2.comments = post.comments ++ reqs.map toComment ∧
      post2.comments.length = post.comments.length + reqs.length) ∧
    (commentAll e postId reqs s).1
      = (List.range reqs.length).map fun i =>
          .sent ⟨200, .comments (post.comments ++ (reqs.take (i + 1)).map toComment)⟩ := by
  obtain ⟨-, hf, -, -, hs, -, -, -⟩ := hdb
  obtain ⟨h1, h2⟩ := commentAll_spec e postId hf hs reqs s post hp hne
  exact ⟨⟨_, h1, rfl, by simp⟩, h2⟩

/-- Witness of C5: `bob` and `ann` comment on the post of `ann` in the sample
world. -/
theorem commentOnPost_appends_in_order_witness :
    (Env.reliable sampleUpload).databaseSucceeds ∧
    sampleStore.posts.findById 0 = some ⟨0, some "hello", none, [], [], 10⟩ ∧
    (commentAll (Env.reliable sampleUpload) 0 [(1, "nice"), (0, "thanks")] sampleStore).1
      = [.sent ⟨200, .comments [⟨1, "nice"⟩]⟩,
         .sent ⟨200, .comments [⟨1, "nice"⟩, ⟨0, "thanks"⟩]⟩] :=
  ⟨databaseSucceeds_reliable sampleUpload, rfl,
    (commentOnPost_appends_in_order (Env.reliable sampleUpload) 0 sampleStore
      ⟨0, some "hello", none, [], [], 10⟩ [(1, "nice"), (0, "thanks")]
      (databaseSucceeds_reliable sampleUpload) rfl (by decide)).2⟩

/-- C6, as stated, fails: when `ann` likes her own post in the sample world the
response is 200 with likes `[0]`, and a notification from `ann` to `ann` is
stored where there was none. -/
theorem selfLike_counterexample :
    sampleStore.posts.findById 0 = some ⟨0, some "hello", none, [], [], 10⟩ ∧
    (likeUnlikePost (Env.reliable sampleUpload) 0 0 sampleStore).1
      = .sent ⟨200, .likes [0]⟩ ∧
    sampleStore.notifications = [] ∧
    (likeUnlikePost (Env.reliable sampleUpload) 0 0 sampleStore).2.notifications
      = [⟨0, 0, "like"⟩] ∧
    (likeUnlikePost (Env.reliable sampleUpload) 0 0 sampleStore).2.notifications
      ≠ sampleStore.notifications := by
  refine ⟨rfl, rfl, rfl, rfl, ?_⟩
  decide

/-- C6, amended: liking one's own post emits a notification to oneself.  For
an existing post whose author is the requester and whose `likes` do not contain
the requester, a successful `likeUnlikePost` adds the requester to the post's
`likes` and stores exactly one new notification, of type `like`, from the
requester to the requester. -/
theorem selfLike_notifies (e : Env) (userId postId : Nat) (s : Store) (post : Post)
    (hf : e.postFind = false) (hw : e.writesSucceed)
    (hp : s.posts.findById postId = some post)
    (hauthor : post.user = userId) (hu : userId ∉ post.likes) :
    (likeUnlikePost e userId postId s).2.posts.findById postId
      = some { post with likes := post.likes ++ [userId] } ∧
    (likeUnlikePost e userId postId s).2.notifications
      = s.notifications ++ [⟨userId, userId, "like"⟩] := by
  rw [likeUnlikePost_like e userId postId s post hf hw hp hu]
  constructor
  · simp [findById_posts_likedStore _ _ _ _ _ hp]
  · simp [likedStore, hauthor]

/-- Witness of the amended C6: `ann` likes her own post in the sample world. -/
theorem selfLike_notifies_witness :
    (Env.reliable sampleUpload).postFind = false ∧
    (Env.reliable sampleUpload).writesSucceed ∧
    sampleStore.posts.findById 0 = some ⟨0, some "hello", none, [], [], 10⟩ ∧
    (likeUnlikePost (Env.reliable sampleUpload) 0 0 sampleStore).2.notifications
      = sampleStore.notifications ++ [⟨0, 0, "like"⟩] :=
  ⟨rfl, writesSucceed_reliable sampleUpload, rfl,
    (selfLike_notifies (Env.reliable sampleUpload) 0 0 sampleStore
      ⟨0, some "hello", none, [], [], 10⟩ rfl (writesSucceed_reliable sampleUpload)
      rfl rfl (by decide)).2⟩

/-- C7 fails on `getUserPosts`: when the user lookup throws, the handler's
promise is rejected and no response is sent, while `getLikedPosts`, whose
lookup stands inside the `try` block, answers 500 in the same situation. -/
theorem getUserPosts_lookup_failure_rejects :
    userFindFails.userFind = true ∧
    getUserPosts userFindFails "ann" sampleStore = (.rejected, sampleStore) ∧
    (getUserPosts userFindFails "ann" sampleStore).1
      ≠ .sent ⟨500, .error "Internal server error"⟩ ∧
    getLikedPosts userFindFails 0 sampleStore
      = (.sent ⟨500, .error "Internal server error"⟩, sampleStore) := by
  refine ⟨rfl, rfl, ?_, rfl⟩
  decide

/-- C8, as stated, fails: when `bob` likes the post of `ann` and only the
notification write throws, both like writes are stored and the response is 500,
not 200 with the updated likes. -/
theorem notificationFailure_counterexample :
    sampleStore.posts.findById 0 = some ⟨0, some "hello", none, [], [], 10⟩ ∧
    (likeUnlikePost notificationFails 1 0 sampleStore).1
      = .sent ⟨500, .error "Internal server error"⟩ ∧
    (likeUnlikePost notificationFails 1 0 sampleStore).2.posts.findById 0
      = some ⟨0, some "hello", none, [1], [], 10⟩ ∧
    (likeUnlikePost notificationFails 1 0 sampleStore).2.users.findById 1
      = some ⟨"bob", "secret", [0], [0]⟩ ∧
    (likeUnlikePost notificationFails 1 0 sampleStore).1 ≠ .sent ⟨200, .likes [1]⟩ := by
  refine ⟨rfl, rfl, rfl, rfl, ?_⟩
  decide

/-- C8, amended: a Notification Sink failure is surfaced to the liking user.
For an existing post not yet liked by the requester, if both like writes
succeed and only the notification write throws, `likeUnlikePost` answers 500
with the generic error body; the like is stored on both sides and no
notification is. -/
theorem notificationFailure_is_surfaced (e : Env) (userId postId : Nat) (s : Store)
    (post : Post) (hf : e.postFind = false) (hu1 : e.userUpdate = false)
    (hs : e.postSave = false) (hn : e.notificationSave = true)
    (hp : s.posts.findById postId = some post) (hu : userId ∉ post.likes) :
    (likeUnlikePost e userId postId s).1 = .sent ⟨500, .error "Internal server error"⟩ ∧
    (likeUnlikePost e userId postId s).2.posts.findById postId
      = some { post with likes := post.likes ++ [userId] } ∧
    (likeUnlikePost e userId postId s).2.users.findById userId
      = (s.users.findById userId).map (fun u =>
          { u with likedPosts := u.likedPosts ++ [postId] }) ∧
    (likeUnlikePost e userId postId s).2.notifications = s.notifications := by
  simp [likeUnlikePost, hf, hu1, hs, hn, hp, hu, internalError, Coll.save,
    Coll.findById_updateOne]

/-- Witness of the amended C8: `bob` likes the post of `ann` while the
notification write throws. -/
theorem notificationFailure_is_surfaced_witness :
    notificationFails.postFind = false ∧ notificationFails.userUpdate = false ∧
    notificationFails.postSave = false ∧ notificationFails.notificationSave = true ∧
    sampleStore.posts.findById 0 = some ⟨0, some "hello", none, [], [], 10⟩ ∧
    (likeUnlikePost notificationFails 1 0 sampleStore).1
      = .sent ⟨500, .error "Internal server error"⟩ :=
  ⟨rfl, rfl, rfl, rfl, rfl,
    (notificationFailure_is_surfaced notificationFails 1 0 sampleStore
      ⟨0, some "hello", none, [], [], 10⟩ rfl rfl rfl rfl rfl (by decide)).1⟩

/-- C9: `likeUnlikePost` returns the resulting likes.  For an existing post and
successful calls, the response is 200 with exactly the list stored as the post's
`likes` after the call; a like returns the old list with the requester
appended, an unlike the old list without any occurrence of the requester,
the others in their old order. -/
theorem likeUnlikePost_returns_stored_likes (e : Env) (userId postId : Nat) (s : Store)
    (post : Post) (hf : e.postFind = false) (hw : e.writesSucceed)
    (hp : s.posts.findById postId = some post) :
    ∃ ids post2,
      (likeUnlikePost e userId postId s).1 = .sent ⟨200, .likes ids⟩ ∧
      (likeUnlikePost e userId postId s).2.posts.findById postId = some post2 ∧
      post2.likes = ids ∧
      (userId ∉ post.likes → ids = post.likes ++ [userId]) ∧
      (userId ∈ post.likes →
        ids = post.likes.filter (fun id => id != userId) ∧ userId ∉ ids ∧
        ids.Sublist post.likes ∧ ∀ v, v ≠ userId → (v ∈ ids ↔ v ∈ post.likes)) := by
  by_cases hu : userId ∈ post.likes
  · rw [likeUnlikePost_unlike e userId postId s post hf hw hp hu]
    refine ⟨_, { post with likes := post.likes.filter fun id => id != userId }, rfl, ?_,
      rfl, fun h => absurd hu h, fun _ => ⟨rfl, ?_, ?_, ?_⟩⟩
    · simp [findById_posts_unlikedStore, hp]
    · simp
    · exact List.filter_sublist _
    · intro v hv
      simp [hv]
  · rw [likeUnlikePost_like e userId postId s post hf hw hp hu]
    refine ⟨_, { post with likes := post.likes ++ [userId] }, rfl, ?_, rfl, fun _ => rfl,
      fun h => absurd h hu⟩
    simp [findById_posts_likedStore _ _ _ _ _ hp]

/-- Witness of C9: `bob` likes the post of `ann` in the sample world. -/
theorem likeUnlikePost_returns_stored_likes_witness :
    (Env.reliable sampleUpload).postFind = false ∧
    (Env.reliable sampleUpload).writesSucceed ∧
    sampleStore.posts.findById 0 = some ⟨0, some "hello", none, [], [], 10⟩ ∧
    ∃ ids post2,
      (likeUnlikePost (Env.reliable sampleUpload) 1 0 sampleStore).1
        = .sent ⟨200, .likes ids⟩ ∧
      (likeUnlikePost (Env.reliable sampleUpload) 1 0 sampleStore).2.posts.findById 0
        = some post2 ∧
      post2.likes = ids ∧ (1 ∉ ([] : List Nat) → ids = [] ++ [1]) :=
  ⟨rfl, writesSucceed_reliable sampleUpload, rfl,
    (likeUnlikePost_returns_stored_likes (Env.reliable sampleUpload) 1 0 sampleStore
      ⟨0, some "hello", none, [], [], 10⟩ rfl (writesSucceed_reliable sampleUpload) rfl).imp
      fun _ h => h.imp fun _ h2 => ⟨h2.1, h2.2.1, h2.2.2.1, h2.2.2.2.1⟩⟩

/-- C10: `post.likes` stays a set.  In a world where no stored post lists a
user twice, whatever the requester, the post id and the behaviour of the
dependencies, no stored post lists a user twice after `likeUnlikePost`;
and a successful like lengthens the target post's `likes` by exactly one, a
successful unlike shortens it by exactly one. -/
theorem likeUnlikePost_keeps_likes_nodup (e : Env) (userId postId : Nat) (s : Store)
    (hnd : LikesNodup s) :
    LikesNodup (likeUnlikePost e userId postId s).2 ∧
    ∀ post, s.posts.findById postId = some post → e.postFind = false → e.writesSucceed →
      ∃ post2, (likeUnlikePost e userId postId s).2.posts.findById postId = some post2 ∧
        (userId ∉ post.likes → post2.likes.length = post.likes.length + 1) ∧
        (userId ∈ post.likes → post2.likes.length + 1 = post.likes.length) := by
  constructor
  · intro pid p hpid
    rcases likeUnlikePost_posts_cases e userId postId s with h | h | ⟨post, hp, hu, h⟩
    · rw [h] at hpid; exact hnd pid p hpid
    · rw [h, Coll.findById_updateOne] at hpid
      by_cases hpp : pid = postId
      · subst hpp
        cases hc : s.posts.findById pid with
        | none => simp [hc] at hpid
        | some p0 =>
          simp only [if_true, hc, Option.map_some', Option.some.injEq] at hpid
          subst hpid
          exact (hnd pid p0 hc).filter _
      · simp only [hpp, if_false] at hpid
        exact hnd pid p hpid
    · rw [h, Coll.save, Coll.findById_updateOne] at hpid
      by_cases hpp : pid = postId
      · subst hpp
        simp only [if_true, hp, Option.map_some', Option.some.injEq] at hpid
        subst hpid
        have := hnd pid post hp
        simp [List.nodup_append, this, hu]
      · simp only [hpp, if_false] at hpid
        exact hnd pid p hpid
  · intro post hp hf hw
    by_cases hu : userId ∈ post.likes
    · rw [likeUnlikePost_unlike e userId postId s post hf hw hp hu]
      refine ⟨_, by simp [findById_posts_unlikedStore, hp]; rfl, fun h => absurd hu h, fun _ => ?_⟩
      exact length_filter_ne_add_one userId post.likes (hnd postId post hp) hu
    · rw [likeUnlikePost_like e userId postId s post hf hw hp hu]
      refine ⟨_, by simp [findById_posts_likedStore _ _ _ _ _ hp]; rfl, fun _ => ?_,
        fun h => absurd h hu⟩
      simp

/-- Witness of C10: `bob` likes the post of `ann` in the sample world. -/
theorem likeUnlikePost_keeps_likes_nodup_witness :
    LikesNodup sampleStore ∧
    LikesNodup (likeUnlikePost (Env.reliable sampleUpload) 1 0 sampleStore).2 :=
  ⟨likesNodup_sampleStore,
    (likeUnlikePost_keeps_likes_nodup (Env.reliable sampleUpload) 1 0 sampleStore
      likesNodup_sampleStore).1⟩

end PostController
